import Mathlib

/-!
# CI Guard extension: a shallow embedding

This file embeds `src/shared/extensions/ci-guard.ts` — the CI gate tracker —
in Lean 4. The tracker observes tool-call / tool-result / agent-end events,
keeps a session-wide state record (`lastCiPassed`, memoized setup fields),
blocks push commands when CI has not passed, and emits an end-of-turn
advisory when unvalidated changes exist.

External process execution (`pi.exec`) is modelled by a `World` function
from (program, args) to an exit code and stdout; every embedded operation
additionally returns the ordered list of exec calls it issued, so that
probe-ordering and memoization properties can be stated.

JavaScript string primitives used by the source (`\s` in regexes,
`String.prototype.trim`, `split("\n")`, `parseInt(_, 10) || 0`) are
reimplemented over `List Char` following ECMAScript semantics.
-/

namespace CiGuard

/-! ## JavaScript string primitives -/

/-- ECMAScript white space / line terminator set, as matched by `\s` in a
JS regex and stripped by `String.prototype.trim`. -/
def isJsWs (c : Char) : Bool :=
  c.val = 9 || c.val = 10 || c.val = 11 || c.val = 12 || c.val = 13 ||
  c.val = 32 || c.val = 0xA0 || c.val = 0x1680 ||
  (0x2000 ≤ c.val && c.val ≤ 0x200A) ||
  c.val = 0x2028 || c.val = 0x2029 || c.val = 0x202F || c.val = 0x205F ||
  c.val = 0x3000 || c.val = 0xFEFF

/-- `String.prototype.trim`: strip leading and trailing JS white space. -/
def jsTrimList (s : List Char) : List Char :=
  ((s.dropWhile isJsWs).reverse.dropWhile isJsWs).reverse

def jsTrim (s : String) : String :=
  ⟨jsTrimList s.toList⟩

/-- `str.split("\n")`: split on newline, keeping empty fields. -/
def splitNl : List Char → List (List Char)
  | [] => [[]]
  | c :: rest =>
    if c = '\n' then [] :: splitNl rest
    else
      match splitNl rest with
      | [] => [[c]]
      | l :: ls => (c :: l) :: ls

/-- Literal prefix match; on success returns the remaining input. -/
def dropLit : List Char → List Char → Option (List Char)
  | [], s => some s
  | _ :: _, [] => none
  | p :: ps, c :: cs => if p = c then dropLit ps cs else none

def leadsWith (p s : List Char) : Bool :=
  (dropLit p s).isSome

/-- `\s+` followed by a token starting with a non-space character: consume
one or more JS white-space characters (maximal munch, equivalent to the
greedy regex since the next token never starts with white space). -/
def ws1 : List Char → Option (List Char)
  | [] => none
  | c :: cs => if isJsWs c then some (cs.dropWhile isJsWs) else none

/-- Match the regex `t₁\s+t₂\s+…\s+tₙ` at the start of the input. -/
def matchSeqAt : List (List Char) → List Char → Bool
  | [], _ => true
  | t :: rest, s =>
    match dropLit t s with
    | none => false
    | some s' =>
      match rest with
      | [] => true
      | _ :: _ =>
        match ws1 s' with
        | none => false
        | some s'' => matchSeqAt rest s''

/-- Match the regex `first\s+(a₁|a₂|…)` at the start of the input. -/
def matchLitAltAt (first : List Char) (alts : List (List Char))
    (s : List Char) : Bool :=
  match dropLit first s with
  | none => false
  | some s' =>
    match ws1 s' with
    | none => false
    | some s'' => alts.any fun a => (dropLit a s'').isSome

/-- An unanchored regex test: does the pattern match at some position? -/
def anyPos (p : List Char → Bool) : List Char → Bool
  | [] => p []
  | c :: rest => p (c :: rest) || anyPos p rest

/-- `/selfci\s+check/.test(command)` -/
def testSelfciCheck (s : String) : Bool :=
  anyPos (matchSeqAt ["selfci".toList, "check".toList]) s.toList

/-- `/jj\s+(commit|squash|rebase|new|edit|describe|abandon)/.test(command)` -/
def testJjMutation (s : String) : Bool :=
  anyPos (matchLitAltAt "jj".toList
    (["commit", "squash", "rebase", "new", "edit", "describe",
      "abandon"].map String.toList)) s.toList

/-- `/git\s+(commit|rebase|merge|cherry-pick|reset|revert)/.test(command)` -/
def testGitMutation (s : String) : Bool :=
  anyPos (matchLitAltAt "git".toList
    (["commit", "rebase", "merge", "cherry-pick", "reset",
      "revert"].map String.toList)) s.toList

/-- `/jj\s+git\s+push/.test(command)` -/
def testJjGitPush (s : String) : Bool :=
  anyPos (matchSeqAt ["jj".toList, "git".toList, "push".toList]) s.toList

/-- `/git\s+push/.test(command)` -/
def testGitPush (s : String) : Bool :=
  anyPos (matchSeqAt ["git".toList, "push".toList]) s.toList

/-- `/^[AMD] /.test(line)`: anchored test used on `jj status` lines. -/
def statusLineIsChange (l : List Char) : Bool :=
  match l with
  | c :: c' :: _ => (c = 'A' || c = 'M' || c = 'D') && c' = ' '
  | _ => false

def natOfDigits (ds : List Char) : Nat :=
  ds.foldl (fun n c => 10 * n + (c.toNat - 48)) 0

/-- `parseInt(s, 10) || 0`: optional JS white space, optional sign, then a
maximal digit run; no digits (`NaN`) coerces to `0` under `|| 0`. -/
def jsParseIntOr0 (s : String) : Int :=
  let l := s.toList.dropWhile isJsWs
  let sign : Int := if l.head? = some '-' then -1 else 1
  let l' := match l with
    | '-' :: r => r
    | '+' :: r => r
    | _ => l
  let ds := l'.takeWhile Char.isDigit
  if ds.isEmpty then 0 else sign * (natOfDigits ds : Int)

/-! ## Data model -/

inductive VCS where
  | jj
  | git
deriving Repr, DecidableEq

/-- An external process call: (program, argument list). -/
abbrev ExecCall := String × List String

/-- The result `pi.exec` delivers: exit code and captured stdout. -/
structure ExecResult where
  code : Int
  stdout : String
deriving Repr, DecidableEq

/-- The environment: answers every external process call. -/
structure World where
  run : String → List String → ExecResult

/-- The module-level mutable state of the extension:
`lastCiPassed`, `hasSelfci`, `vcs`, `trunkBranch` (the three setup fields
start as `null`, modelled by `none`). -/
structure GuardState where
  lastCiPassed : Bool
  hasSelfci : Option Bool
  vcs : Option VCS
  trunkBranch : Option String
deriving Repr, DecidableEq

def initState : GuardState :=
  { lastCiPassed := false, hasSelfci := none, vcs := none,
    trunkBranch := none }

/-- Interpolation of a nullable string into a JS template literal
(`null` prints as "null"). -/
def optStr : Option String → String
  | some s => s
  | none => "null"

/-! ## Setup resolver (`detectSetup`)

Each phase returns its result, the updated state, and the exec calls it
issued, in order. -/

def markerCall : ExecCall := ("test", ["-f", ".config/selfci/ci.yaml"])
def jjDirCall : ExecCall := ("test", ["-d", ".jj"])
def gitDirCall : ExecCall := ("test", ["-d", ".git"])
def bookmarkCall : ExecCall := ("jj", ["bookmark", "list", "--no-pager"])
def revParseCall (name : String) : ExecCall :=
  ("git", ["rev-parse", "--verify", name])

/-- `if (hasSelfci === null) { … } ; if (!hasSelfci) return false` — the
marker-file check, memoized in both outcomes. -/
def resolveMarker (w : World) (st : GuardState) :
    Bool × GuardState × List ExecCall :=
  match st.hasSelfci with
  | some b => (b, st, [])
  | none =>
    let r := w.run markerCall.1 markerCall.2
    (r.code = 0, { st with hasSelfci := some (r.code = 0) }, [markerCall])

/-- VCS detection: probe `.jj` first, then `.git`; a double failure writes
`null` back, which is indistinguishable from "not yet probed". -/
def resolveVcs (w : World) (st : GuardState) :
    Option VCS × GuardState × List ExecCall :=
  match st.vcs with
  | some v => (some v, st, [])
  | none =>
    let rjj := w.run jjDirCall.1 jjDirCall.2
    if rjj.code = 0 then
      (some VCS.jj, { st with vcs := some VCS.jj }, [jjDirCall])
    else
      let rgit := w.run gitDirCall.1 gitDirCall.2
      let v := if rgit.code = 0 then some VCS.git else none
      (v, { st with vcs := v }, [jjDirCall, gitDirCall])

/-- The trunk names the source tries, in order. -/
def trunkNames : List String := ["main", "master", "trunk"]

/-- `bookmarks.stdout.split("\n").some((l) => l.startsWith(name + ":"))` -/
def hasBookmark (out name : String) : Bool :=
  (splitNl out.toList).any fun l => leadsWith (name ++ ":").toList l

/-- First conventional trunk name that appears as `name:` at the start of a
line of the `jj bookmark list` output. -/
def jjTrunkFromListing (out : String) : Option String :=
  trunkNames.find? (hasBookmark out)

/-- The git loop: `git rev-parse --verify name` per candidate, stopping at
the first success. -/
def gitTrunkProbe (w : World) : List String → Option String × List ExecCall
  | [] => (none, [])
  | name :: rest =>
    let r := w.run (revParseCall name).1 (revParseCall name).2
    if r.code = 0 then (some name, [revParseCall name])
    else
      let (res, tr) := gitTrunkProbe w rest
      (res, revParseCall name :: tr)

/-- Trunk detection; a failure leaves `trunkBranch` at `null`. -/
def resolveTrunk (w : World) (st : GuardState) (v : VCS) :
    Option String × GuardState × List ExecCall :=
  match st.trunkBranch with
  | some t => (some t, st, [])
  | none =>
    match v with
    | VCS.jj =>
      let bm := w.run bookmarkCall.1 bookmarkCall.2
      let found := if bm.code = 0 then jjTrunkFromListing bm.stdout else none
      (found, { st with trunkBranch := found }, [bookmarkCall])
    | VCS.git =>
      let (found, tr) := gitTrunkProbe w trunkNames
      (found, { st with trunkBranch := found }, tr)

/-- `detectSetup`: marker, then VCS, then trunk, each short-circuiting;
gating is active exactly when the whole chain resolved. -/
def detectSetup (w : World) (st : GuardState) :
    Bool × GuardState × List ExecCall :=
  let (hs, st1, tr1) := resolveMarker w st
  if !hs then (false, st1, tr1)
  else
    let (v, st2, tr2) := resolveVcs w st1
    match v with
    | none => (false, st2, tr1 ++ tr2)
    | some vv =>
      let (t, st3, tr3) := resolveTrunk w st2 vv
      (t.isSome, st3, tr1 ++ tr2 ++ tr3)

/-! ## Change-set inspector (`hasChanges`) -/

structure Changes where
  working : Bool
  commits : Int
deriving Repr, DecidableEq

def jjStatusCall : ExecCall := ("jj", ["status", "--no-pager"])

def jjLogCall (trunk : Option String) : ExecCall :=
  ("jj", ["log", "-r", optStr trunk ++ "..@- ~ empty()", "--no-graph",
          "-T", "change_id.short() ++ \"\\n\""])

def gitStatusCall : ExecCall := ("git", ["status", "--porcelain"])

def gitRevListCall (trunk : Option String) : ExecCall :=
  ("git", ["rev-list", "--count", optStr trunk ++ "..HEAD"])

/-- `hasChanges`: working-copy flag and ahead-of-trunk count, per VCS.
The source branches on `vcs === "jj"`, so `git` and `null` share the
second branch. -/
def hasChanges (w : World) (st : GuardState) : Changes × List ExecCall :=
  if st.vcs = some VCS.jj then
    let status := w.run jjStatusCall.1 jjStatusCall.2
    let working :=
      status.code = 0 &&
      (splitNl status.stdout.toList).any statusLineIsChange
    let log := w.run (jjLogCall st.trunkBranch).1 (jjLogCall st.trunkBranch).2
    let commits : Int :=
      if log.code = 0 then
        (((jsTrim log.stdout).toList |> splitNl).filter
          fun l => l.length > 0).length
      else 0
    ({ working := working, commits := commits },
     [jjStatusCall, jjLogCall st.trunkBranch])
  else
    let status := w.run gitStatusCall.1 gitStatusCall.2
    let working := status.code = 0 && (jsTrim status.stdout).length > 0
    let log := w.run (gitRevListCall st.trunkBranch).1
      (gitRevListCall st.trunkBranch).2
    let commits : Int :=
      if log.code = 0 then jsParseIntOr0 (jsTrim log.stdout) else 0
    ({ working := working, commits := commits },
     [gitStatusCall, gitRevListCall st.trunkBranch])

/-! ## Event handlers -/

/-- First `tool_result` handler: a successful `selfci check` run sets
`lastCiPassed`. Returns the new value of `lastCiPassed`. -/
def selfciResultHandler (ci : Bool) (toolName : String)
    (command : Option String) (exitCode : Option Int) : Bool :=
  if toolName ≠ "Bash" then ci
  else if testSelfciCheck (command.getD "") then
    if exitCode = some 0 then true else ci
  else ci

/-- Second `tool_result` handler: a jj or git history mutation resets
`lastCiPassed`. -/
def mutationResetHandler (ci : Bool) (toolName : String)
    (command : Option String) : Bool :=
  if toolName ≠ "Bash" then ci
  else
    let cmd := command.getD ""
    let ci1 := if testJjMutation cmd then false else ci
    if testGitMutation cmd then false else ci1

/-- Third `tool_result` handler: `Edit` or `Write` resets `lastCiPassed`. -/
def editResetHandler (ci : Bool) (toolName : String) : Bool :=
  if toolName = "Edit" || toolName = "Write" then false else ci

/-- All three `tool_result` handlers, in registration order. -/
def stepToolResult (st : GuardState) (toolName : String)
    (command : Option String) (exitCode : Option Int) : GuardState :=
  let c1 := selfciResultHandler st.lastCiPassed toolName command exitCode
  let c2 := mutationResetHandler c1 toolName command
  let c3 := editResetHandler c2 toolName
  { st with lastCiPassed := c3 }

inductive Decision where
  | allow
  | block (reason : String)
deriving Repr, DecidableEq

def pushBlockReason : String :=
  "CI has not passed for the current changes. Run `selfci check` first and ensure it passes before pushing."

/-- The `tool_call` handler: block a push-like Bash command when gating is
active and CI has not passed. -/
def stepToolCall (w : World) (st : GuardState) (toolName : String)
    (command : Option String) : Decision × GuardState × List ExecCall :=
  if toolName ≠ "Bash" then (Decision.allow, st, [])
  else
    let cmd := command.getD ""
    let isPush := testJjGitPush cmd || testGitPush cmd
    if !isPush then (Decision.allow, st, [])
    else
      let (active, st', tr) := detectSetup w st
      if !active then (Decision.allow, st', tr)
      else if !st'.lastCiPassed then
        (Decision.block pushBlockReason, st', tr)
      else (Decision.allow, st', tr)

/-- The reminder message: `Reminder: there are ${parts.join(" and ")}. …` -/
def mkReminder (working : Bool) (commits : Int) (trunk : Option String) :
    String :=
  let parts : List String :=
    (if working then ["uncommitted changes in the working copy"] else []) ++
    (if commits > 0 then
      [toString commits ++ " commit(s) ahead of " ++ optStr trunk]
     else [])
  "Reminder: there are " ++ String.intercalate " and " parts ++
    ". Run `selfci check` to validate before finishing."

/-- The `agent_end` handler: emit the advisory (returned as `some` message
content) when CI has not passed, gating is active, and changes exist. -/
def stepAgentEnd (w : World) (st : GuardState) :
    Option String × GuardState × List ExecCall :=
  if st.lastCiPassed then (none, st, [])
  else
    let (active, st', tr1) := detectSetup w st
    if !active then (none, st', tr1)
    else
      let (ch, tr2) := hasChanges w st'
      if ch.working || ch.commits > 0 then
        (some (mkReminder ch.working ch.commits st'.trunkBranch), st',
         tr1 ++ tr2)
      else (none, st', tr1 ++ tr2)

/-! ## The event stream -/

inductive Event where
  | toolResult (toolName : String) (command : Option String)
      (exitCode : Option Int)
  | toolCall (toolName : String) (command : Option String)
  | agentEnd
deriving Repr, DecidableEq

/-- State transition of one event (outputs discarded). -/
def stepEvent (w : World) (st : GuardState) : Event → GuardState
  | Event.toolResult tn cmd ec => stepToolResult st tn cmd ec
  | Event.toolCall tn cmd => (stepToolCall w st tn cmd).2.1
  | Event.agentEnd => (stepAgentEnd w st).2.1

def runEvents (w : World) (st : GuardState) (evs : List Event) : GuardState :=
  evs.foldl (stepEvent w) st

/-- Does the event reset CI state through the `Edit`/`Write` handler? -/
def isFileMutation : Event → Bool
  | Event.toolResult tn _ _ => tn = "Edit" || tn = "Write"
  | _ => false

/-- Does the event reset CI state through the VCS-mutation handler? -/
def isHistoryMutation : Event → Bool
  | Event.toolResult tn cmd _ =>
    tn = "Bash" &&
      (testJjMutation (cmd.getD "") || testGitMutation (cmd.getD ""))
  | _ => false

/-! ## Helper lemmas -/

theorem resolveMarker_ci (w : World) (st : GuardState) :
    (resolveMarker w st).2.1.lastCiPassed = st.lastCiPassed := by
  unfold resolveMarker
  split <;> rfl

theorem resolveVcs_ci (w : World) (st : GuardState) :
    (resolveVcs w st).2.1.lastCiPassed = st.lastCiPassed := by
  unfold resolveVcs
  split
  · rfl
  · dsimp only
    split <;> rfl

theorem resolveTrunk_ci (w : World) (st : GuardState) (v : VCS) :
    (resolveTrunk w st v).2.1.lastCiPassed = st.lastCiPassed := by
  unfold resolveTrunk
  split
  · rfl
  · split
    · rfl
    · split
      rfl

theorem detectSetup_ci (w : World) (st : GuardState) :
    (detectSetup w st).2.1.lastCiPassed = st.lastCiPassed := by
  unfold detectSetup
  rcases hm : resolveMarker w st with ⟨hs, st1, tr1⟩
  have e1 : st1.lastCiPassed = st.lastCiPassed := by
    rw [← resolveMarker_ci w st, hm]
  rcases hv : resolveVcs w st1 with ⟨v, st2, tr2⟩
  have e2 : st2.lastCiPassed = st1.lastCiPassed := by
    rw [← resolveVcs_ci w st1, hv]
  simp only [hm, hv]
  split
  · exact e1
  · cases v with
    | none => exact e2.trans e1
    | some vv =>
      rcases ht : resolveTrunk w st2 vv with ⟨t, st3, tr3⟩
      have e3 : st3.lastCiPassed = st2.lastCiPassed := by
        rw [← resolveTrunk_ci w st2 vv, ht]
      simp only [ht]
      exact (e3.trans e2).trans e1

theorem stepToolCall_ci (w : World) (st : GuardState) (tn : String)
    (cmd : Option String) :
    (stepToolCall w st tn cmd).2.1.lastCiPassed = st.lastCiPassed := by
  rcases hd : detectSetup w st with ⟨active, st', tr⟩
  have e : st'.lastCiPassed = st.lastCiPassed := by
    rw [← detectSetup_ci w st, hd]
  unfold stepToolCall
  dsimp only
  simp only [hd]
  split
  · rfl
  · split
    · rfl
    · split
      · exact e
      · split <;> exact e

theorem hasChanges_trace (w : World) (st : GuardState) :
    (hasChanges w st).2 =
      (if st.vcs = some VCS.jj then [jjStatusCall, jjLogCall st.trunkBranch]
       else [gitStatusCall, gitRevListCall st.trunkBranch]) := by
  unfold hasChanges
  split <;> rfl

theorem stepAgentEnd_ci (w : World) (st : GuardState) :
    (stepAgentEnd w st).2.1.lastCiPassed = st.lastCiPassed := by
  rcases hd : detectSetup w st with ⟨active, st', tr1⟩
  have e : st'.lastCiPassed = st.lastCiPassed := by
    rw [← detectSetup_ci w st, hd]
  unfold stepAgentEnd
  simp only [hd]
  split
  · rfl
  · split
    · exact e
    · rcases hc : hasChanges w st' with ⟨ch, tr2⟩
      simp only [hc]
      split <;> exact e

/-! ## Claim theorems -/

/-- C2: `ciPassed` starts false at session start, and is false immediately
after processing any event that is a file-content mutation (`Edit`/`Write`
tool result) or a Bash tool result matching a recognized jj or git
history-mutating pattern, regardless of its prior value. -/
theorem ciPassed_reset_on_mutation :
    initState.lastCiPassed = false ∧
    ∀ (w : World) (st : GuardState) (e : Event),
      (isFileMutation e || isHistoryMutation e) = true →
      (stepEvent w st e).lastCiPassed = false := by
  refine ⟨rfl, ?_⟩
  intro w st e h
  cases e with
  | toolResult tn cmd ec =>
    simp only [isFileMutation, isHistoryMutation, Bool.or_eq_true,
      Bool.and_eq_true, decide_eq_true_eq] at h
    unfold stepEvent stepToolResult editResetHandler mutationResetHandler
    rcases h with (h | h) | ⟨hb, hmut⟩
    · subst h; simp
    · subst h; simp
    · subst hb
      rcases hmut with hj | hg
      · simp [hj]
      · simp [hg]
  | toolCall tn cmd => simp [isFileMutation, isHistoryMutation] at h
  | agentEnd => simp [isFileMutation, isHistoryMutation] at h

theorem editResetHandler_true {c : Bool} {t : String}
    (h : editResetHandler c t = true) : c = true := by
  unfold editResetHandler at h
  split at h
  · exact absurd h (by simp)
  · exact h

theorem mutationResetHandler_true {c : Bool} {tn : String}
    {cmd : Option String} (h : mutationResetHandler c tn cmd = true) :
    c = true := by
  unfold mutationResetHandler at h
  split at h
  · exact h
  · dsimp only at h
    split at h
    · exact absurd h (by simp)
    · split at h
      · exact absurd h (by simp)
      · exact h

theorem selfciResultHandler_false_true {tn : String} {cmd : Option String}
    {ec : Option Int} (h : selfciResultHandler false tn cmd ec = true) :
    tn = "Bash" ∧ testSelfciCheck (cmd.getD "") = true ∧ ec = some 0 := by
  unfold selfciResultHandler at h
  split at h
  · exact absurd h (by simp)
  · split at h
    · split at h
      · exact ⟨by tauto, by assumption, by assumption⟩
      · exact absurd h (by simp)
    · exact absurd h (by simp)

theorem selfciResultHandler_of_true (tn : String) (cmd : Option String)
    (ec : Option Int) : selfciResultHandler true tn cmd ec = true := by
  unfold selfciResultHandler
  (repeat' split) <;> rfl

/-- C3: `ciPassed` goes from false to true only at a tool-result event that
is a successful `selfci check` Bash run (exit code 0); once true, it stays
true across any event — and any sequence of events — that is neither a
file mutation nor a history mutation. -/
theorem ciPassed_monotone_until_mutation :
    (∀ (w : World) (st : GuardState) (e : Event),
      st.lastCiPassed = false →
      (stepEvent w st e).lastCiPassed = true →
      ∃ tn cmd ec, e = Event.toolResult tn cmd ec ∧ tn = "Bash" ∧
        testSelfciCheck (cmd.getD "") = true ∧ ec = some 0) ∧
    (∀ (w : World) (st : GuardState) (e : Event),
      st.lastCiPassed = true →
      isFileMutation e = false → isHistoryMutation e = false →
      (stepEvent w st e).lastCiPassed = true) ∧
    (∀ (w : World) (st : GuardState) (evs : List Event),
      st.lastCiPassed = true →
      (∀ e ∈ evs, isFileMutation e = false ∧ isHistoryMutation e = false) →
      (runEvents w st evs).lastCiPassed = true) := by
  have preserve : ∀ (w : World) (st : GuardState) (e : Event),
      st.lastCiPassed = true →
      isFileMutation e = false → isHistoryMutation e = false →
      (stepEvent w st e).lastCiPassed = true := by
    intro w st e hci hfm hhm
    cases e with
    | toolResult tn cmd ec =>
      simp only [isFileMutation, Bool.or_eq_false_iff,
        decide_eq_false_iff_not] at hfm
      simp only [isHistoryMutation, Bool.and_eq_false_iff,
        Bool.or_eq_false_iff, decide_eq_false_iff_not] at hhm
      dsimp only [stepEvent, stepToolResult]
      have h1 : selfciResultHandler st.lastCiPassed tn cmd ec = true := by
        rw [hci]; exact selfciResultHandler_of_true tn cmd ec
      have h2 : mutationResetHandler
          (selfciResultHandler st.lastCiPassed tn cmd ec) tn cmd = true := by
        unfold mutationResetHandler
        split
        · exact h1
        · dsimp only
          rcases hhm with hb | ⟨hj, hg⟩
          · tauto
          · rw [hj, hg]
            exact h1
      unfold editResetHandler
      split
      · rename_i hsplit
        simp only [Bool.or_eq_true, decide_eq_true_eq] at hsplit
        tauto
      · exact h2
    | toolCall tn cmd =>
      dsimp only [stepEvent]
      rw [stepToolCall_ci, hci]
    | agentEnd =>
      dsimp only [stepEvent]
      rw [stepAgentEnd_ci, hci]
  refine ⟨?_, preserve, ?_⟩
  · intro w st e hci ht
    cases e with
    | toolResult tn cmd ec =>
      dsimp only [stepEvent, stepToolResult] at ht
      have h2 := editResetHandler_true ht
      have h1 := mutationResetHandler_true h2
      rw [hci] at h1
      obtain ⟨hb, hs, he⟩ := selfciResultHandler_false_true h1
      exact ⟨tn, cmd, ec, rfl, hb, hs, he⟩
    | toolCall tn cmd =>
      dsimp only [stepEvent] at ht
      rw [stepToolCall_ci, hci] at ht
      exact absurd ht (by simp)
    | agentEnd =>
      dsimp only [stepEvent] at ht
      rw [stepAgentEnd_ci, hci] at ht
      exact absurd ht (by simp)
  · intro w st evs
    induction evs generalizing st with
    | nil => intro hci _; exact hci
    | cons e evs ih =>
      intro hci hall
      have he := hall e (by simp)
      have hstep := preserve w st e hci he.1 he.2
      exact ih (stepEvent w st e) hstep
        (fun e' he' => hall e' (by simp [he']))

/-- C3 witness: a read-only Bash tool result preserves `ciPassed = true`. -/
theorem ciPassed_monotone_until_mutation_witness :
    ({ initState with lastCiPassed := true } : GuardState).lastCiPassed
        = true ∧
    isFileMutation (Event.toolResult "Bash" (some "ls -la") (some 0))
        = false ∧
    isHistoryMutation (Event.toolResult "Bash" (some "ls -la") (some 0))
        = false ∧
    (stepEvent ⟨fun _ _ => ⟨0, ""⟩⟩ { initState with lastCiPassed := true }
      (Event.toolResult "Bash" (some "ls -la") (some 0))).lastCiPassed
        = true :=
  ⟨rfl, by decide, by decide,
   ciPassed_monotone_until_mutation.2.1 ⟨fun _ _ => ⟨0, ""⟩⟩
     { initState with lastCiPassed := true }
     (Event.toolResult "Bash" (some "ls -la") (some 0))
     rfl (by decide) (by decide)⟩

theorem editResetHandler_bash (c : Bool) : editResetHandler c "Bash" = c :=
  rfl

/-- A concrete environment for witnesses: the selfci marker and a `.jj`
directory exist, the trunk bookmark is `main`, the working copy has one
modified file, and one changeset is ahead of trunk. -/
def demoWorld : World :=
  ⟨fun p args =>
    if p = "test" then ⟨0, ""⟩
    else if p = "jj" && args = ["bookmark", "list", "--no-pager"] then
      ⟨0, "main: abc\n"⟩
    else if p = "jj" && args = ["status", "--no-pager"] then
      ⟨0, "Working copy changes:\nM src/foo.ts\n"⟩
    else ⟨0, "abc\n"⟩⟩

/-- C1: the push decision for a Bash tool call — not a push: allow;
push with gating inactive: allow; push with gating active and CI passed:
allow; push with gating active and CI not passed: block with the fixed
advisory; and `jj git push` matches both VCSs' push patterns yet gets the
same single decision. -/
theorem push_decision (w : World) (st : GuardState) (cmd : String) :
    ((testJjGitPush cmd || testGitPush cmd) = false →
      (stepToolCall w st "Bash" (some cmd)).1 = Decision.allow) ∧
    ((testJjGitPush cmd || testGitPush cmd) = true →
      (detectSetup w st).1 = false →
      (stepToolCall w st "Bash" (some cmd)).1 = Decision.allow) ∧
    ((testJjGitPush cmd || testGitPush cmd) = true →
      (detectSetup w st).1 = true → st.lastCiPassed = true →
      (stepToolCall w st "Bash" (some cmd)).1 = Decision.allow) ∧
    ((testJjGitPush cmd || testGitPush cmd) = true →
      (detectSetup w st).1 = true → st.lastCiPassed = false →
      (stepToolCall w st "Bash" (some cmd)).1 =
        Decision.block pushBlockReason) ∧
    (testJjGitPush "jj git push" = true ∧ testGitPush "jj git push" = true)
    := by
  rcases hd : detectSetup w st with ⟨active, st', tr⟩
  have hci : st'.lastCiPassed = st.lastCiPassed := by
    rw [← detectSetup_ci w st, hd]
  unfold stepToolCall
  rw [if_neg (by simp)]
  dsimp only [Option.getD]
  simp only [hd]
  refine ⟨?_, ?_, ?_, ?_, by decide, by decide⟩
  · intro h
    simp [h]
  · intro h ha
    subst ha
    simp [h]
  · intro h ha hl
    subst ha
    simp [h, hci, hl]
  · intro h ha hl
    subst ha
    simp [h, hci, hl]

/-- C1 witness: in a configured jj repository with trunk `main` and CI not
passed, `jj git push` — which matches both push patterns — is blocked with
the fixed advisory text. -/
theorem push_decision_witness :
    (testJjGitPush "jj git push" || testGitPush "jj git push") = true ∧
    (detectSetup demoWorld initState).1 = true ∧
    initState.lastCiPassed = false ∧
    (stepToolCall demoWorld initState "Bash" (some "jj git push")).1 =
      Decision.block pushBlockReason :=
  ⟨by decide, by decide, rfl,
   (push_decision demoWorld initState "jj git push").2.2.2.1
     (by decide) (by decide) rfl⟩

theorem mutationResetHandler_mut {c : Bool} {cmd : Option String}
    (h : (testJjMutation (cmd.getD "") ||
          testGitMutation (cmd.getD "")) = true) :
    mutationResetHandler c "Bash" cmd = false := by
  unfold mutationResetHandler
  rw [if_neg (by simp)]
  dsimp only
  simp only [Bool.or_eq_true] at h
  rcases h with h | h <;> simp [h]

/-- C9: a single Bash tool result whose command matches both the
validation-success pattern (exit code 0) and a jj or git mutation pattern
leaves `ciPassed` false: the mutation reset handler runs after the
validation handler within the same event. -/
theorem mutation_overrides_selfci_success :
    ∀ (st : GuardState) (cmd : String),
      testSelfciCheck cmd = true →
      (testJjMutation cmd || testGitMutation cmd) = true →
      (stepToolResult st "Bash" (some cmd) (some 0)).lastCiPassed = false := by
  intro st cmd _ hm
  dsimp only [stepToolResult]
  rw [editResetHandler_bash]
  exact mutationResetHandler_mut (by simpa using hm)

/-- C9 witness: chaining `selfci check` with `git commit` resets
`ciPassed` even though the run exited 0, also from `ciPassed = true`. -/
theorem mutation_overrides_selfci_success_witness :
    testSelfciCheck "selfci check && git commit -m done" = true ∧
    (testJjMutation "selfci check && git commit -m done" ||
      testGitMutation "selfci check && git commit -m done") = true ∧
    (stepToolResult { initState with lastCiPassed := true } "Bash"
      (some "selfci check && git commit -m done")
      (some 0)).lastCiPassed = false :=
  ⟨by decide, by decide,
   mutation_overrides_selfci_success { initState with lastCiPassed := true }
     "selfci check && git commit -m done" (by decide) (by decide)⟩

/-- C10: validation success is recognized purely textually — the first
tool-result handler sets `ciPassed` whenever the command text contains a
`selfci\s+check` match and the reported exit code is 0; in particular a
command that merely echoes the text counts, as the full handler chain
shows for `echo "selfci check"`. -/
theorem selfci_success_is_textual :
    (∀ (ci : Bool) (cmd : String) (ec : Option Int),
      testSelfciCheck cmd = true → ec = some 0 →
      selfciResultHandler ci "Bash" (some cmd) ec = true) ∧
    (∀ st : GuardState,
      (stepToolResult st "Bash" (some "echo \"selfci check\"")
        (some 0)).lastCiPassed = true) := by
  constructor
  · intro ci cmd ec hs he
    unfold selfciResultHandler
    rw [if_neg (by simp)]
    simp [hs, he]
  · intro st
    rcases st with ⟨ci, hs, v, t⟩
    cases ci <;> rfl

/-- C10 witness: a command that contains the validation text sets
`ciPassed` in the first handler, at a concrete input. -/
theorem selfci_success_is_textual_witness :
    testSelfciCheck "echo \"selfci check\"" = true ∧
    selfciResultHandler false "Bash" (some "echo \"selfci check\"")
      (some 0) = true :=
  ⟨by decide,
   selfci_success_is_textual.1 false "echo \"selfci check\"" (some 0)
     (by decide) rfl⟩

/-! ### Setup-resolver equation lemmas -/

theorem resolveMarker_cached {st : GuardState} {b : Bool} (w : World)
    (h : st.hasSelfci = some b) : resolveMarker w st = (b, st, []) := by
  unfold resolveMarker
  rw [h]

theorem resolveVcs_cached {st : GuardState} {v : VCS} (w : World)
    (h : st.vcs = some v) : resolveVcs w st = (some v, st, []) := by
  unfold resolveVcs
  rw [h]

theorem resolveTrunk_cached {st : GuardState} {t : String} (w : World)
    (v : VCS) (h : st.trunkBranch = some t) :
    resolveTrunk w st v = (some t, st, []) := by
  unfold resolveTrunk
  rw [h]

theorem resolveVcs_fresh_jj {st : GuardState} {w : World}
    (h : st.vcs = none) (hjj : (w.run jjDirCall.1 jjDirCall.2).code = 0) :
    resolveVcs w st =
      (some VCS.jj, { st with vcs := some VCS.jj }, [jjDirCall]) := by
  unfold resolveVcs
  rw [h]
  dsimp only
  rw [if_pos hjj]

theorem resolveVcs_fresh_nojj {st : GuardState} {w : World}
    (h : st.vcs = none) (hjj : ¬(w.run jjDirCall.1 jjDirCall.2).code = 0) :
    resolveVcs w st =
      (if (w.run gitDirCall.1 gitDirCall.2).code = 0 then some VCS.git
       else none,
       { st with vcs :=
          if (w.run gitDirCall.1 gitDirCall.2).code = 0 then some VCS.git
          else none },
       [jjDirCall, gitDirCall]) := by
  unfold resolveVcs
  rw [h]
  dsimp only
  rw [if_neg hjj]

theorem resolveTrunk_fresh_jj {st : GuardState} {w : World}
    (h : st.trunkBranch = none) :
    resolveTrunk w st VCS.jj =
      (let found :=
        if (w.run bookmarkCall.1 bookmarkCall.2).code = 0 then
          jjTrunkFromListing (w.run bookmarkCall.1 bookmarkCall.2).stdout
        else none
       (found, { st with trunkBranch := found }, [bookmarkCall])) := by
  unfold resolveTrunk
  rw [h]

theorem resolveTrunk_fresh_git {st : GuardState} {w : World}
    (h : st.trunkBranch = none) :
    resolveTrunk w st VCS.git =
      ((gitTrunkProbe w trunkNames).1,
       { st with trunkBranch := (gitTrunkProbe w trunkNames).1 },
       (gitTrunkProbe w trunkNames).2) := by
  unfold resolveTrunk
  rw [h]

theorem gitTrunkProbe_cons_pos {w : World} {name : String}
    (rest : List String)
    (hcode : (w.run (revParseCall name).1 (revParseCall name).2).code = 0) :
    gitTrunkProbe w (name :: rest) = (some name, [revParseCall name]) := by
  unfold gitTrunkProbe
  rw [if_pos hcode]

theorem gitTrunkProbe_cons_neg {w : World} {name : String}
    (rest : List String)
    (hcode : ¬(w.run (revParseCall name).1 (revParseCall name).2).code = 0) :
    gitTrunkProbe w (name :: rest) =
      ((gitTrunkProbe w rest).1,
       revParseCall name :: (gitTrunkProbe w rest).2) := by
  conv_lhs => unfold gitTrunkProbe
  rw [if_neg hcode]

theorem gitTrunkProbe_trace (w : World) (names : List String) :
    ∀ c ∈ (gitTrunkProbe w names).2, ∃ n ∈ names, c = revParseCall n := by
  induction names with
  | nil => intro c hc; simp [gitTrunkProbe] at hc
  | cons name rest ih =>
    intro c hc
    by_cases hcode :
        (w.run (revParseCall name).1 (revParseCall name).2).code = 0
    · rw [gitTrunkProbe_cons_pos rest hcode] at hc
      simp at hc
      exact ⟨name, by simp, hc⟩
    · rw [gitTrunkProbe_cons_neg rest hcode] at hc
      rcases List.mem_cons.mp hc with hc | hc
      · exact ⟨name, by simp, hc⟩
      · obtain ⟨n, hn, he⟩ := ih c hc
        exact ⟨n, by simp [hn], he⟩

theorem resolveMarker_trace (w : World) (st : GuardState) :
    ∀ c ∈ (resolveMarker w st).2.2,
      c = markerCall ∧ st.hasSelfci = none := by
  intro c hc
  unfold resolveMarker at hc
  split at hc
  · simp at hc
  · rename_i heq
    simp at hc
    exact ⟨hc, heq⟩

theorem resolveVcs_trace (w : World) (st : GuardState) :
    ∀ c ∈ (resolveVcs w st).2.2,
      (c = jjDirCall ∨ c = gitDirCall) ∧ st.vcs = none := by
  intro c hc
  unfold resolveVcs at hc
  split at hc
  · simp at hc
  · rename_i heq
    dsimp only at hc
    split at hc
    · simp at hc
      exact ⟨Or.inl hc, heq⟩
    · simp at hc
      exact ⟨hc, heq⟩

theorem resolveTrunk_trace (w : World) (st : GuardState) (v : VCS) :
    ∀ c ∈ (resolveTrunk w st v).2.2,
      (c = bookmarkCall ∨ ∃ n, c = revParseCall n) ∧
        st.trunkBranch = none := by
  intro c hc
  unfold resolveTrunk at hc
  split at hc
  · simp at hc
  · rename_i heq
    cases v with
    | jj =>
      dsimp only at hc
      simp at hc
      exact ⟨Or.inl hc, heq⟩
    | git =>
      dsimp only at hc
      obtain ⟨n, _, he⟩ := gitTrunkProbe_trace w trunkNames c hc
      exact ⟨Or.inr ⟨n, he⟩, heq⟩

theorem resolveMarker_vcs (w : World) (st : GuardState) :
    (resolveMarker w st).2.1.vcs = st.vcs := by
  unfold resolveMarker
  split <;> rfl

theorem resolveMarker_trunk (w : World) (st : GuardState) :
    (resolveMarker w st).2.1.trunkBranch = st.trunkBranch := by
  unfold resolveMarker
  split <;> rfl

theorem resolveVcs_trunk (w : World) (st : GuardState) :
    (resolveVcs w st).2.1.trunkBranch = st.trunkBranch := by
  unfold resolveVcs
  split
  · rfl
  · dsimp only
    split <;> rfl

/-- `detectSetup` in projection form, convenient for rewriting. -/
theorem detectSetup_eq (w : World) (st : GuardState) :
    detectSetup w st =
      (if !(resolveMarker w st).1 then
        (false, (resolveMarker w st).2.1, (resolveMarker w st).2.2)
       else
         match (resolveVcs w (resolveMarker w st).2.1).1 with
         | none =>
           (false, (resolveVcs w (resolveMarker w st).2.1).2.1,
            (resolveMarker w st).2.2 ++
              (resolveVcs w (resolveMarker w st).2.1).2.2)
         | some vv =>
           (((resolveTrunk w (resolveVcs w (resolveMarker w st).2.1).2.1
               vv).1).isSome,
            (resolveTrunk w (resolveVcs w (resolveMarker w st).2.1).2.1
              vv).2.1,
            (resolveMarker w st).2.2 ++
              (resolveVcs w (resolveMarker w st).2.1).2.2 ++
              (resolveTrunk w (resolveVcs w (resolveMarker w st).2.1).2.1
                vv).2.2)) := rfl

/-- Every probe issued by `detectSetup` is for a field that was still
unresolved when the call started. -/
theorem detectSetup_trace_mem (w : World) (st : GuardState) :
    ∀ c ∈ (detectSetup w st).2.2,
      (c = markerCall ∧ st.hasSelfci = none) ∨
      ((c = jjDirCall ∨ c = gitDirCall) ∧ st.vcs = none) ∨
      ((c = bookmarkCall ∨ ∃ n, c = revParseCall n) ∧
        st.trunkBranch = none) := by
  intro c hc
  rw [detectSetup_eq] at hc
  split at hc
  · exact Or.inl (resolveMarker_trace w st c hc)
  · split at hc
    · dsimp only at hc
      rcases List.mem_append.mp hc with h | h
      · exact Or.inl (resolveMarker_trace w st c h)
      · have hv := resolveVcs_trace w _ c h
        rw [resolveMarker_vcs] at hv
        exact Or.inr (Or.inl hv)
    · dsimp only at hc
      rcases List.mem_append.mp hc with h | h
      · rcases List.mem_append.mp h with h' | h'
        · exact Or.inl (resolveMarker_trace w st c h')
        · have hv := resolveVcs_trace w _ c h'
          rw [resolveMarker_vcs] at hv
          exact Or.inr (Or.inl hv)
      · have ht := resolveTrunk_trace w _ _ c h
        rw [resolveVcs_trunk, resolveMarker_trunk] at ht
        exact Or.inr (Or.inr ht)

theorem resolveMarker_fresh {st : GuardState} (w : World)
    (h : st.hasSelfci = none) :
    resolveMarker w st =
      (decide ((w.run markerCall.1 markerCall.2).code = 0),
       { st with
          hasSelfci := some (decide ((w.run markerCall.1 markerCall.2).code = 0)) },
       [markerCall]) := by
  unfold resolveMarker
  rw [h]

theorem resolveMarker_post (w : World) (st : GuardState) :
    (resolveMarker w st).2.1.hasSelfci = some (resolveMarker w st).1 := by
  unfold resolveMarker
  split
  · rename_i heq
    exact heq
  · rfl

theorem resolveVcs_post (w : World) (st : GuardState) :
    (resolveVcs w st).2.1.vcs = (resolveVcs w st).1 := by
  unfold resolveVcs
  split
  · rename_i heq
    exact heq
  · dsimp only
    split <;> rfl

theorem resolveTrunk_post (w : World) (st : GuardState) (v : VCS) :
    (resolveTrunk w st v).2.1.trunkBranch = (resolveTrunk w st v).1 := by
  unfold resolveTrunk
  split
  · rename_i heq
    exact heq
  · cases v <;> rfl

theorem resolveVcs_hasSelfci (w : World) (st : GuardState) :
    (resolveVcs w st).2.1.hasSelfci = st.hasSelfci := by
  unfold resolveVcs
  split
  · rfl
  · dsimp only
    split <;> rfl

theorem resolveTrunk_hasSelfci (w : World) (st : GuardState) (v : VCS) :
    (resolveTrunk w st v).2.1.hasSelfci = st.hasSelfci := by
  unfold resolveTrunk
  split
  · rfl
  · cases v <;> rfl

theorem resolveTrunk_vcs (w : World) (st : GuardState) (v : VCS) :
    (resolveTrunk w st v).2.1.vcs = st.vcs := by
  unfold resolveTrunk
  split
  · rfl
  · cases v <;> rfl

/-- An environment with the selfci marker present but no recognizable VCS
directory. -/
def noVcsWorld : World :=
  ⟨fun p args =>
    if p = "test" && args = ["-f", ".config/selfci/ci.yaml"] then ⟨0, ""⟩
    else ⟨1, ""⟩⟩

/-- An environment where the `.jj` probe fails but everything else
succeeds: a git repository that appeared after a first failed probe. -/
def vcsLaterWorld : World :=
  ⟨fun p args =>
    if p = "test" && args = ["-d", ".jj"] then ⟨1, ""⟩
    else ⟨0, ""⟩⟩

/-- C4 counterexample: with the marker present and no VCS, the first setup
evaluation fails and issues the `.jj` probe — and a second evaluation
issues the very same probe again (the failure is not cached), and even
reports gating active if a `.git` directory has appeared meanwhile. -/
theorem setup_memoization_counterexample :
    (detectSetup noVcsWorld initState).1 = false ∧
    jjDirCall ∈ (detectSetup noVcsWorld initState).2.2 ∧
    jjDirCall ∈ (detectSetup noVcsWorld
      (detectSetup noVcsWorld initState).2.1).2.2 ∧
    (detectSetup vcsLaterWorld
      (detectSetup noVcsWorld initState).2.1).1 = true := by
  decide

/-- C4 (amended): only resolved fields are memoized. Once `hasSelfci` is
probed, the marker probe is never issued again (failure included, and a
cached `some false` short-circuits with no probes at all); once `vcs`
resp. `trunkBranch` is successfully resolved, its probes are never issued
again. But a failed VCS or trunk resolution leaves the field `none`, so
the `.jj` probe — and, with a resolved VCS, the bookmark-listing resp.
`rev-parse` trunk probes — are re-issued by any later setup evaluation,
and gating can become active later in the session. -/
theorem setup_memoization (w : World) (st : GuardState) :
    (st.hasSelfci.isSome → markerCall ∉ (detectSetup w st).2.2) ∧
    (st.hasSelfci = some false → detectSetup w st = (false, st, [])) ∧
    (st.vcs.isSome →
      jjDirCall ∉ (detectSetup w st).2.2 ∧
      gitDirCall ∉ (detectSetup w st).2.2) ∧
    (st.trunkBranch.isSome →
      bookmarkCall ∉ (detectSetup w st).2.2 ∧
      ∀ n, revParseCall n ∉ (detectSetup w st).2.2) ∧
    (st.hasSelfci = some true → st.vcs = none →
      jjDirCall ∈ (detectSetup w st).2.2) ∧
    (st.hasSelfci = some true → st.vcs = some VCS.jj →
      st.trunkBranch = none →
      bookmarkCall ∈ (detectSetup w st).2.2) ∧
    (st.hasSelfci = some true → st.vcs = some VCS.git →
      st.trunkBranch = none →
      revParseCall "main" ∈ (detectSetup w st).2.2) := by
  refine ⟨?_, ?_, ?_, ?_, ?_, ?_, ?_⟩
  · intro hs hmem
    rcases detectSetup_trace_mem w st markerCall hmem with
      ⟨_, h⟩ | ⟨_, h⟩ | ⟨hshape, _⟩
    · rw [h] at hs
      simp at hs
    · rename_i hshape
      simp [markerCall, jjDirCall, gitDirCall] at hshape
    · rcases hshape with h | ⟨n, h⟩
      · simp [markerCall, bookmarkCall] at h
      · simp [markerCall, revParseCall] at h
  · intro h
    rw [detectSetup_eq, resolveMarker_cached w h]
    simp
  · intro hv
    constructor <;> intro hmem
    · rcases detectSetup_trace_mem w st jjDirCall hmem with
        ⟨h, _⟩ | ⟨_, h⟩ | ⟨hshape, _⟩
      · simp [markerCall, jjDirCall] at h
      · rw [h] at hv
        simp at hv
      · rcases hshape with h | ⟨n, h⟩
        · simp [jjDirCall, bookmarkCall] at h
        · simp [jjDirCall, revParseCall] at h
    · rcases detectSetup_trace_mem w st gitDirCall hmem with
        ⟨h, _⟩ | ⟨_, h⟩ | ⟨hshape, _⟩
      · simp [markerCall, gitDirCall] at h
      · rw [h] at hv
        simp at hv
      · rcases hshape with h | ⟨n, h⟩
        · simp [gitDirCall, bookmarkCall] at h
        · simp [gitDirCall, revParseCall] at h
  · intro ht
    constructor
    · intro hmem
      rcases detectSetup_trace_mem w st bookmarkCall hmem with
        ⟨h, _⟩ | ⟨hshape, _⟩ | ⟨_, h⟩
      · simp [markerCall, bookmarkCall] at h
      · simp [bookmarkCall, jjDirCall, gitDirCall] at hshape
      · rw [h] at ht
        simp at ht
    · intro n hmem
      rcases detectSetup_trace_mem w st (revParseCall n) hmem with
        ⟨h, _⟩ | ⟨hshape, _⟩ | ⟨_, h⟩
      · simp [markerCall, revParseCall] at h
      · simp [revParseCall, jjDirCall, gitDirCall] at hshape
      · rw [h] at ht
        simp at ht
  · intro hs hv
    rw [detectSetup_eq, resolveMarker_cached w hs]
    dsimp only
    by_cases hjj : (w.run jjDirCall.1 jjDirCall.2).code = 0
    · rw [resolveVcs_fresh_jj hv hjj]
      simp
    · rw [resolveVcs_fresh_nojj hv hjj]
      by_cases hgit : (w.run gitDirCall.1 gitDirCall.2).code = 0
      · rw [if_pos hgit]
        simp
      · rw [if_neg hgit]
        simp
  · intro hs hv ht
    rw [detectSetup_eq, resolveMarker_cached w hs]
    dsimp only
    rw [resolveVcs_cached w hv]
    dsimp only
    rw [resolveTrunk_fresh_jj ht]
    simp
  · intro hs hv ht
    rw [detectSetup_eq, resolveMarker_cached w hs]
    dsimp only
    rw [resolveVcs_cached w hv]
    dsimp only
    rw [resolveTrunk_fresh_git ht]
    simp only [List.nil_append, List.append_nil]
    have hmain : revParseCall "main" ∈ (gitTrunkProbe w trunkNames).2 := by
      unfold trunkNames
      by_cases h1 :
          (w.run (revParseCall "main").1 (revParseCall "main").2).code = 0
      · rw [gitTrunkProbe_cons_pos _ h1]
        simp
      · rw [gitTrunkProbe_cons_neg _ h1]
        simp
    simp [hmain]

/-- C4 (amended) witness: a cached marker failure yields no probes at all,
an unresolved VCS field is probed (again), and an unresolved trunk field
is probed (again) under a resolved VCS, all at concrete inputs. -/
theorem setup_memoization_witness :
    ({ initState with hasSelfci := some false } : GuardState).hasSelfci
        = some false ∧
    detectSetup demoWorld { initState with hasSelfci := some false } =
      (false, { initState with hasSelfci := some false }, []) ∧
    ({ initState with hasSelfci := some true } : GuardState).vcs = none ∧
    jjDirCall ∈ (detectSetup demoWorld
      { initState with hasSelfci := some true }).2.2 ∧
    ({ initState with hasSelfci := some true, vcs := some VCS.jj }
        : GuardState).trunkBranch = none ∧
    bookmarkCall ∈ (detectSetup demoWorld
      { initState with hasSelfci := some true, vcs := some VCS.jj }).2.2 :=
  ⟨rfl,
   (setup_memoization demoWorld
     { initState with hasSelfci := some false }).2.1 rfl,
   rfl,
   (setup_memoization demoWorld
     { initState with hasSelfci := some true }).2.2.2.2.1 rfl rfl,
   rfl,
   (setup_memoization demoWorld
     { initState with hasSelfci := some true, vcs := some VCS.jj }
       ).2.2.2.2.2.1 rfl rfl rfl⟩

theorem jjTrunkFromListing_first (out : String) :
    jjTrunkFromListing out =
      (if hasBookmark out "main" then some "main"
       else if hasBookmark out "master" then some "master"
       else if hasBookmark out "trunk" then some "trunk"
       else none) := by
  unfold jjTrunkFromListing trunkNames
  by_cases h1 : hasBookmark out "main" <;>
    by_cases h2 : hasBookmark out "master" <;>
      by_cases h3 : hasBookmark out "trunk" <;>
        simp [List.find?, h1, h2, h3]

theorem gitTrunkProbe_first (w : World) :
    gitTrunkProbe w trunkNames =
      (if (w.run (revParseCall "main").1 (revParseCall "main").2).code = 0
       then (some "main", [revParseCall "main"])
       else if (w.run (revParseCall "master").1
           (revParseCall "master").2).code = 0 then
        (some "master", [revParseCall "main", revParseCall "master"])
       else if (w.run (revParseCall "trunk").1
           (revParseCall "trunk").2).code = 0 then
        (some "trunk",
         [revParseCall "main", revParseCall "master", revParseCall "trunk"])
       else
        (none,
         [revParseCall "main", revParseCall "master",
          revParseCall "trunk"])) := by
  unfold trunkNames
  by_cases h1 : (w.run (revParseCall "main").1 (revParseCall "main").2).code
      = 0
  · rw [gitTrunkProbe_cons_pos _ h1, if_pos h1]
  · rw [gitTrunkProbe_cons_neg _ h1, if_neg h1]
    by_cases h2 : (w.run (revParseCall "master").1
        (revParseCall "master").2).code = 0
    · rw [gitTrunkProbe_cons_pos _ h2, if_pos h2]
    · rw [gitTrunkProbe_cons_neg _ h2, if_neg h2]
      by_cases h3 : (w.run (revParseCall "trunk").1
          (revParseCall "trunk").2).code = 0
      · rw [gitTrunkProbe_cons_pos _ h3, if_pos h3]
      · rw [gitTrunkProbe_cons_neg _ h3, if_neg h3]
        simp [gitTrunkProbe]

theorem setup_active_iff (w : World) (st : GuardState) :
    (detectSetup w st).1 = true ↔
      ((detectSetup w st).2.1.hasSelfci = some true ∧
       ((detectSetup w st).2.1.vcs).isSome = true ∧
       ((detectSetup w st).2.1.trunkBranch).isSome = true) := by
  rw [detectSetup_eq]
  split
  · rename_i hneg
    simp only [Bool.not_eq_true'] at hneg
    have hm := resolveMarker_post w st
    rw [hneg] at hm
    simp [hm]
  · rename_i hpos
    have hm1 : (resolveMarker w st).1 = true := by
      simpa using hpos
    split
    · rename_i heqv
      have hv := resolveVcs_post w (resolveMarker w st).2.1
      rw [heqv] at hv
      simp [hv]
    · rename_i vv heqv
      have hv := resolveVcs_post w (resolveMarker w st).2.1
      rw [heqv] at hv
      have hhs := resolveTrunk_hasSelfci w
        (resolveVcs w (resolveMarker w st).2.1).2.1 vv
      rw [resolveVcs_hasSelfci, resolveMarker_post, hm1] at hhs
      have hvcs := resolveTrunk_vcs w
        (resolveVcs w (resolveMarker w st).2.1).2.1 vv
      rw [hv] at hvcs
      have ht := resolveTrunk_post w
        (resolveVcs w (resolveMarker w st).2.1).2.1 vv
      simp [hhs, hvcs, ht]

/-- C6: setup resolution order — the marker probe comes first and its
absence short-circuits everything; `.jj` is probed before `.git` and
`.git` only on a `.jj` failure; the trunk names `main`, `master`, `trunk`
are tried in that order and the first hit wins (for jj against the
bookmark listing, for git via successive `rev-parse` probes); and gating
is active exactly when marker, VCS and trunk all resolved. -/
theorem setup_resolution_order (w : World) :
    ((w.run markerCall.1 markerCall.2).code ≠ 0 →
      detectSetup w initState =
        (false, { initState with hasSelfci := some false },
         [markerCall])) ∧
    ((w.run markerCall.1 markerCall.2).code = 0 →
      (w.run jjDirCall.1 jjDirCall.2).code = 0 →
      (detectSetup w initState).2.1.vcs = some VCS.jj ∧
      (detectSetup w initState).2.2 =
        [markerCall, jjDirCall, bookmarkCall]) ∧
    ((w.run markerCall.1 markerCall.2).code = 0 →
      ¬(w.run jjDirCall.1 jjDirCall.2).code = 0 →
      (w.run gitDirCall.1 gitDirCall.2).code = 0 →
      (detectSetup w initState).2.1.vcs = some VCS.git ∧
      (detectSetup w initState).2.2 =
        [markerCall, jjDirCall, gitDirCall] ++
          (gitTrunkProbe w trunkNames).2) ∧
    ((w.run markerCall.1 markerCall.2).code = 0 →
      ¬(w.run jjDirCall.1 jjDirCall.2).code = 0 →
      ¬(w.run gitDirCall.1 gitDirCall.2).code = 0 →
      detectSetup w initState =
        (false, { initState with hasSelfci := some true },
         [markerCall, jjDirCall, gitDirCall])) ∧
    (∀ out, jjTrunkFromListing out =
      (if hasBookmark out "main" then some "main"
       else if hasBookmark out "master" then some "master"
       else if hasBookmark out "trunk" then some "trunk"
       else none)) ∧
    (gitTrunkProbe w trunkNames =
      (if (w.run (revParseCall "main").1 (revParseCall "main").2).code = 0
       then (some "main", [revParseCall "main"])
       else if (w.run (revParseCall "master").1
           (revParseCall "master").2).code = 0 then
        (some "master", [revParseCall "main", revParseCall "master"])
       else if (w.run (revParseCall "trunk").1
           (revParseCall "trunk").2).code = 0 then
        (some "trunk",
         [revParseCall "main", revParseCall "master", revParseCall "trunk"])
       else
        (none,
         [revParseCall "main", revParseCall "master",
          revParseCall "trunk"]))) ∧
    (∀ st, (detectSetup w st).1 = true ↔
      ((detectSetup w st).2.1.hasSelfci = some true ∧
       ((detectSetup w st).2.1.vcs).isSome = true ∧
       ((detectSetup w st).2.1.trunkBranch).isSome = true)) := by
  refine ⟨?_, ?_, ?_, ?_, jjTrunkFromListing_first, gitTrunkProbe_first w,
    setup_active_iff w⟩
  · intro h
    rw [detectSetup_eq, resolveMarker_fresh w rfl]
    simp [h]
  · intro h1 h2
    simp only [markerCall, jjDirCall] at h1 h2
    simp [detectSetup, resolveMarker, resolveVcs, resolveTrunk, initState,
      markerCall, jjDirCall, bookmarkCall, h1, h2]
  · intro h1 h2 h3
    simp only [markerCall, jjDirCall, gitDirCall] at h1 h2 h3
    simp [detectSetup, resolveMarker, resolveVcs, resolveTrunk, initState,
      markerCall, jjDirCall, gitDirCall, h1, h2, h3]
  · intro h1 h2 h3
    simp only [markerCall, jjDirCall, gitDirCall] at h1 h2 h3
    simp [detectSetup, resolveMarker, resolveVcs, resolveTrunk, initState,
      markerCall, jjDirCall, gitDirCall, h1, h2, h3]

/-- C6 witness: in the demo environment the marker and `.jj` probes
succeed, the resolved VCS is jj, and the probes ran in order
marker, `.jj`, bookmark listing. -/
theorem setup_resolution_order_witness :
    (demoWorld.run markerCall.1 markerCall.2).code = 0 ∧
    (demoWorld.run jjDirCall.1 jjDirCall.2).code = 0 ∧
    ((detectSetup demoWorld initState).2.1.vcs = some VCS.jj ∧
     (detectSetup demoWorld initState).2.2 =
       [markerCall, jjDirCall, bookmarkCall]) :=
  ⟨by decide, by decide,
   (setup_resolution_order demoWorld).2.1 (by decide) (by decide)⟩

/-- C7: per-VCS asymmetry of the change inspector. Under jj the ahead
count is the number of non-empty lines of a log over the revset
`trunk..@- ~ empty()` (empty changesets excluded, head's parent as upper
bound) and the working-copy flag scans status lines for `^[AMD] `
markers; under git the count is a direct `rev-list --count trunk..HEAD`
parse with no empty filtering, and the working-copy flag is any non-empty
porcelain output. -/
theorem hasChanges_per_vcs (w : World) (st : GuardState) :
    (st.vcs = some VCS.jj →
      (hasChanges w st).2 = [jjStatusCall, jjLogCall st.trunkBranch] ∧
      jjLogCall st.trunkBranch =
        ("jj", ["log", "-r", optStr st.trunkBranch ++ "..@- ~ empty()",
                "--no-graph", "-T", "change_id.short() ++ \"\\n\""]) ∧
      ((hasChanges w st).1.working = true ↔
        ((w.run jjStatusCall.1 jjStatusCall.2).code = 0 ∧
         ∃ l ∈ splitNl (w.run jjStatusCall.1 jjStatusCall.2).stdout.toList,
           statusLineIsChange l = true)) ∧
      ((w.run (jjLogCall st.trunkBranch).1
          (jjLogCall st.trunkBranch).2).code = 0 →
        (hasChanges w st).1.commits =
          (((splitNl (jsTrim (w.run (jjLogCall st.trunkBranch).1
              (jjLogCall st.trunkBranch).2).stdout).toList)).filter
            (fun l => l.length > 0)).length)) ∧
    (st.vcs = some VCS.git →
      (hasChanges w st).2 = [gitStatusCall, gitRevListCall st.trunkBranch] ∧
      gitRevListCall st.trunkBranch =
        ("git", ["rev-list", "--count", optStr st.trunkBranch ++ "..HEAD"])
        ∧
      ((hasChanges w st).1.working = true ↔
        ((w.run gitStatusCall.1 gitStatusCall.2).code = 0 ∧
         (jsTrim (w.run gitStatusCall.1 gitStatusCall.2).stdout).length > 0))
        ∧
      ((w.run (gitRevListCall st.trunkBranch).1
          (gitRevListCall st.trunkBranch).2).code = 0 →
        (hasChanges w st).1.commits =
          jsParseIntOr0 (jsTrim (w.run (gitRevListCall st.trunkBranch).1
            (gitRevListCall st.trunkBranch).2).stdout))) := by
  constructor
  · intro hv
    unfold hasChanges
    rw [if_pos hv]
    refine ⟨rfl, rfl, ?_, ?_⟩
    · dsimp only
      simp [List.any_eq_true]
    · intro hlog
      dsimp only
      rw [if_pos hlog]
  · intro hv
    unfold hasChanges
    rw [if_neg (by simp [hv])]
    refine ⟨rfl, rfl, ?_, ?_⟩
    · dsimp only
      simp
    · intro hlog
      dsimp only
      rw [if_pos hlog]

/-- C7 witness: in the demo jj environment the inspector issues the jj
status and jj log probes and reports the modified file. -/
theorem hasChanges_per_vcs_witness :
    ((detectSetup demoWorld initState).2.1.vcs = some VCS.jj) ∧
    (hasChanges demoWorld (detectSetup demoWorld initState).2.1).2 =
      [jjStatusCall,
       jjLogCall (detectSetup demoWorld initState).2.1.trunkBranch] :=
  ⟨by decide,
   ((hasChanges_per_vcs demoWorld
     (detectSetup demoWorld initState).2.1).1 (by decide)).1⟩

/-- C8: a failed probe yields the conservative default — a non-zero exit
of the status probe reports no working-copy changes, a non-zero exit of
the log/count probe reports zero commits ahead — for both VCS branches. -/
theorem hasChanges_conservative (w : World) (st : GuardState) :
    (st.vcs = some VCS.jj →
      ((w.run jjStatusCall.1 jjStatusCall.2).code ≠ 0 →
        (hasChanges w st).1.working = false) ∧
      ((w.run (jjLogCall st.trunkBranch).1
          (jjLogCall st.trunkBranch).2).code ≠ 0 →
        (hasChanges w st).1.commits = 0)) ∧
    (st.vcs = some VCS.git →
      ((w.run gitStatusCall.1 gitStatusCall.2).code ≠ 0 →
        (hasChanges w st).1.working = false) ∧
      ((w.run (gitRevListCall st.trunkBranch).1
          (gitRevListCall st.trunkBranch).2).code ≠ 0 →
        (hasChanges w st).1.commits = 0)) := by
  constructor
  · intro hv
    unfold hasChanges
    rw [if_pos hv]
    constructor
    · intro h
      dsimp only
      simp [h]
    · intro h
      dsimp only
      rw [if_neg h]
  · intro hv
    unfold hasChanges
    rw [if_neg (by simp [hv])]
    constructor
    · intro h
      dsimp only
      simp [h]
    · intro h
      dsimp only
      rw [if_neg h]

/-- An environment like `demoWorld` but where every `jj` probe fails. -/
def jjDownWorld : World :=
  ⟨fun p args =>
    if p = "jj" then ⟨1, ""⟩
    else (demoWorld.run p args)⟩

/-- C8 witness: when the jj probes fail, the inspector reports no changes
at a concrete input. -/
theorem hasChanges_conservative_witness :
    ({ initState with vcs := some VCS.jj, trunkBranch := some "main" }
        : GuardState).vcs = some VCS.jj ∧
    (jjDownWorld.run jjStatusCall.1 jjStatusCall.2).code ≠ 0 ∧
    (hasChanges jjDownWorld
      { initState with vcs := some VCS.jj, trunkBranch := some "main" }
      ).1.working = false :=
  ⟨rfl, by decide,
   ((hasChanges_conservative jjDownWorld
     { initState with vcs := some VCS.jj, trunkBranch := some "main" }).1
       rfl).1 (by decide)⟩

theorem intercalate_single (a : String) :
    String.intercalate " and " [a] = a := by
  simp [String.intercalate, String.intercalate.go]

theorem intercalate_pair (a b : String) :
    String.intercalate " and " [a, b] = a ++ " and " ++ b := by
  simp [String.intercalate, String.intercalate.go]

/-- C5: the end-of-turn advisory is emitted iff `ciPassed` is false,
gating is active, and the working copy is dirty or commits are ahead of
trunk; when emitted, its text names exactly the conditions that hold,
citing the ahead count and the trunk ref for the commits condition. -/
theorem agentEnd_advisory (w : World) (st : GuardState) :
    ((stepAgentEnd w st).1 ≠ none ↔
      (st.lastCiPassed = false ∧ (detectSetup w st).1 = true ∧
       ((hasChanges w (detectSetup w st).2.1).1.working = true ∨
        (hasChanges w (detectSetup w st).2.1).1.commits > 0))) ∧
    (st.lastCiPassed = false → (detectSetup w st).1 = true →
      ((hasChanges w (detectSetup w st).2.1).1.working = true ∨
        (hasChanges w (detectSetup w st).2.1).1.commits > 0) →
      (stepAgentEnd w st).1 =
        some (mkReminder (hasChanges w (detectSetup w st).2.1).1.working
          (hasChanges w (detectSetup w st).2.1).1.commits
          (detectSetup w st).2.1.trunkBranch)) ∧
    (∀ (c : Int) (t : Option String), c ≤ 0 → mkReminder true c t =
      "Reminder: there are uncommitted changes in the working copy. Run `selfci check` to validate before finishing.") ∧
    (∀ (c : Int) (t : Option String), c > 0 → mkReminder false c t =
      "Reminder: there are " ++ toString c ++ " commit(s) ahead of " ++
        optStr t ++ ". Run `selfci check` to validate before finishing.") ∧
    (∀ (c : Int) (t : Option String), c > 0 → mkReminder true c t =
      "Reminder: there are uncommitted changes in the working copy and " ++
        toString c ++ " commit(s) ahead of " ++ optStr t ++
        ". Run `selfci check` to validate before finishing.") := by
  rcases hd : detectSetup w st with ⟨active, st', tr⟩
  dsimp only
  refine ⟨?_, ?_, ?_, ?_, ?_⟩
  · unfold stepAgentEnd
    rcases hci : st.lastCiPassed with _ | _
    · rw [if_neg (by simp [hci])]
      simp only [hd]
      cases active with
      | false => simp
      | true =>
        rw [if_neg (by simp)]
        rcases hc : hasChanges w st' with ⟨ch, tr2⟩
        simp only [hc]
        split
        · rename_i hcond
          simp only [Bool.or_eq_true, decide_eq_true_eq] at hcond
          simp [hcond]
        · rename_i hcond
          simp only [Bool.or_eq_true, decide_eq_true_eq, not_or,
            Bool.not_eq_true] at hcond
          obtain ⟨h1, h2⟩ := hcond
          simp [h1]
          omega
    · rw [if_pos (by simp [hci])]
      simp [hci]
  · intro hci hact hch
    subst hact
    unfold stepAgentEnd
    rw [if_neg (by simp [hci])]
    simp only [hd]
    rw [if_neg (by simp)]
    rcases hc : hasChanges w st' with ⟨ch, tr2⟩
    rw [hc] at hch
    dsimp only at hch
    simp only [hc]
    rw [if_pos (by simpa using hch)]
  · intro c t hc
    unfold mkReminder
    rw [if_pos rfl, if_neg (by omega)]
    simp [intercalate_single]
  · intro c t hc
    unfold mkReminder
    rw [if_neg (by simp), if_pos hc]
    simp only [List.nil_append, intercalate_single]
    have hap : ∀ s t : String, s ++ t = String.mk (s.data ++ t.data) :=
      fun s t => rfl
    simp only [hap]
    simp [List.append_assoc]
  · intro c t hc
    unfold mkReminder
    rw [if_pos rfl, if_pos hc]
    simp only [List.singleton_append, intercalate_pair]
    have hap : ∀ s t : String, s ++ t = String.mk (s.data ++ t.data) :=
      fun s t => rfl
    simp only [hap]
    simp [List.append_assoc]

/-- C5 witness: in the demo environment with CI not passed, the advisory
is emitted and reads exactly as composed from both conditions. -/
theorem agentEnd_advisory_witness :
    initState.lastCiPassed = false ∧
    (detectSetup demoWorld initState).1 = true ∧
    ((hasChanges demoWorld
        (detectSetup demoWorld initState).2.1).1.working = true ∨
      (hasChanges demoWorld
        (detectSetup demoWorld initState).2.1).1.commits > 0) ∧
    (stepAgentEnd demoWorld initState).1 =
      some (mkReminder
        (hasChanges demoWorld (detectSetup demoWorld initState).2.1
          ).1.working
        (hasChanges demoWorld (detectSetup demoWorld initState).2.1
          ).1.commits
        (detectSetup demoWorld initState).2.1.trunkBranch) :=
  ⟨rfl, by decide, Or.inl (by decide),
   (agentEnd_advisory demoWorld initState).2.1 rfl (by decide)
     (Or.inl (by decide))⟩

/-- C2 witness: after an `Edit` tool result, `ciPassed` is false even when
it was true before. -/
theorem ciPassed_reset_on_mutation_witness :
    (isFileMutation (Event.toolResult "Edit" none none) ||
      isHistoryMutation (Event.toolResult "Edit" none none)) = true ∧
    (stepEvent ⟨fun _ _ => ⟨0, ""⟩⟩
      { initState with lastCiPassed := true }
      (Event.toolResult "Edit" none none)).lastCiPassed = false :=
  ⟨by decide,
   ciPassed_reset_on_mutation.2 ⟨fun _ _ => ⟨0, ""⟩⟩
     { initState with lastCiPassed := true }
     (Event.toolResult "Edit" none none) (by decide)⟩

end CiGuard
